import Mathlib

/-!
Verification of the entity-extraction span-selection core and the
license-plate decoding helper of this repository.

The span-selection pipeline (`get_score`, `find_best_entity_window`,
`postprocess`, `run_analyze_entities`) is embedded from the
entity-extraction notebook; `result_to_string` is embedded from the
license-plate recognition notebook.  numpy array operations
(`np.triu`, `np.tril`, `np.matmul` of a column by a row,
`ndarray.flatten`, `ndarray.argmax`, slicing) are modelled entrywise on
lists, with a Python runtime error rendered as `none`.
-/

namespace EntityExtraction

/-- Python slice `l[a:b]` (clamping, as Python does). -/
def slice {α : Type} (l : List α) (a b : Nat) : List α :=
  (l.take b).drop a

/-- Model of `np.matmul` of the column vector `s` (shape `(n,1)`) with the row
vector `e` (shape `(1,m)`): the outer-product matrix, as a row-major
list of rows. -/
def outer {α : Type} [Mul α] (s e : List α) : List (List α) :=
  s.map (fun x => e.map (fun y => x * y))

/-- Model of `np.triu m`: zero every entry strictly below the diagonal
(`j < i`). -/
def triu {α : Type} [Zero α] (m : List (List α)) : List (List α) :=
  m.mapIdx (fun i row => row.mapIdx (fun j x => if j < i then 0 else x))

/-- Model of `np.tril m k` (with nonnegative offset `k`): zero every entry with
`j > i + k`. -/
def trilOff {α : Type} [Zero α] (m : List (List α)) (k : Nat) : List (List α) :=
  m.mapIdx (fun i row => row.mapIdx (fun j x => if i + k < j then 0 else x))

/-- Model of `ndarray.flatten` on a row-major matrix. -/
def npFlatten {α : Type} (m : List (List α)) : List α :=
  m.flatten

/-- Helper for `npArgmax`: scan the rest of the list, keeping the index
of the first maximum seen so far (`bi`, with value `bv`); `i` is the
index of the head of `xs` in the whole list. -/
def argmaxFrom {α : Type} [LinearOrder α] : List α → Nat → Nat → α → Nat
  | [], _, bi, _ => bi
  | x :: xs, i, bi, bv =>
    if bv < x then argmaxFrom xs (i + 1) i x else argmaxFrom xs (i + 1) bi bv

/-- Model of `ndarray.argmax`: index of the first occurrence of the maximum;
raises (`none`) on an empty array. -/
def npArgmax {α : Type} [LinearOrder α] : List α → Option Nat
  | [] => none
  | x :: xs => some (argmaxFrom xs 1 0 x)

/-- Embedding of `find_best_entity_window` from the entity-extraction notebook.
Builds the outer product of the context slices of the two score
vectors, masks end-before-start candidates (`np.triu`) and candidates
longer than 16 tokens (`np.tril(·, 16)`), and takes the row-major
argmax.  A Python/numpy runtime error (reshape size mismatch, argmax
of an empty array) is `none`. -/
def find_best_entity_window {α : Type} [LinearOrderedField α]
    (start_score end_score : List α) (context_start_idx context_end_idx : Nat) :
    Option (α × Nat × Nat) :=
  let context_len := context_end_idx - context_start_idx
  let s := slice start_score context_start_idx context_end_idx
  let e := slice end_score context_start_idx context_end_idx
  if s.length = context_len ∧ e.length = context_len then
    let score_mat := trilOff (triu (outer s e)) 16
    match npArgmax (npFlatten score_mat) with
    | none => none
    | some k =>
      let max_s := k / context_len
      let max_e := k % context_len
      some ((score_mat.getD max_s []).getD max_e 0, max_s, max_e)
  else none

/-- Embedding of `get_score` from the function `postprocess` of the notebook: softmax over the
whole logit vector (`np.exp` then division by the full sum). -/
noncomputable def get_score (logits : List ℝ) : List ℝ :=
  let out := logits.map Real.exp
  out.map (fun x => x / out.sum)

/-- The operation `selectSpan` of the spec: softmax both logit vectors over their full
length, then run the window search with explicit context bounds. -/
noncomputable def selectSpan (startLogits endLogits : List ℝ)
    (contextStartIdx contextEndIdx : Nat) : Option (ℝ × Nat × Nat) :=
  find_best_entity_window (get_score startLogits) (get_score endLogits)
    contextStartIdx contextEndIdx

/-- Embedding of `postprocess` from the notebook: softmax the raw outputs, derive the
context window from the entity-token count and the input size, find the
best window and translate its context-local token indices to character
offsets through the context token-span table. -/
noncomputable def postprocess (output_start output_end : List ℝ)
    (entity_tokens : List Int) (context_tokens_start_end : List (Nat × Nat))
    (input_size : Nat) : Option (ℝ × Nat × Nat) :=
  let score_start := get_score output_start
  let score_end := get_score output_end
  let context_start_idx := entity_tokens.length + 2
  let context_end_idx := input_size - 1
  match find_best_entity_window score_start score_end context_start_idx context_end_idx with
  | none => none
  | some (max_score, max_s, max_e) =>
    some (max_score, (context_tokens_start_end.getD max_s (0, 0)).1,
      (context_tokens_start_end.getD max_e (0, 0)).2)

/-- One record of the `extract` list built by `run_analyze_entities`:
the answer substring, the field (entity type) it answers, and the
confidence score. -/
structure Extraction where
  entity : String
  type : String
  score : ℝ

/-- The entity-recognition template list from the notebook. -/
def template : List String :=
  ["building", "company", "persons", "city", "state", "height", "floor", "address"]

/-- The global confidence score threshold of the notebook. -/
noncomputable def confidence_threshold : ℝ := 0.4

/-- The `for field in template` loop body of `run_analyze_entities`:
query `field ++ "?"` through `get_best_entity` (abstracted as the
oracle `gbe`, the tokenizer plus model inference plus `postprocess`)
and append a record exactly when the score reaches the threshold. -/
noncomputable def analyzeFields (gbe : String → String → String × ℝ)
    (context : String) : List String → List Extraction → List Extraction
  | [], extract => extract
  | field :: rest, extract =>
    let er := gbe (field ++ "?") context
    if confidence_threshold ≤ er.2 then
      analyzeFields gbe context rest (extract ++ [⟨er.1, field, er.2⟩])
    else
      analyzeFields gbe context rest extract

/-- Embedding of `run_analyze_entities` from the notebook: reject an empty context
or a context longer than 380 characters (printing an error and
returning, rendered `none`), otherwise run the template loop starting
from the empty `extract` list. -/
noncomputable def run_analyze_entities (gbe : String → String → String × ℝ)
    (context : String) : Option (List Extraction) :=
  if context.length = 0 then none
  else if 380 < context.length then none
  else some (analyzeFields gbe context template [])

end EntityExtraction

namespace PlateRecognition

/-- Python list indexing `match_dictionary[int(idx)]` (negative indices
count from the end, as in Python; an out-of-range index yields `""`). -/
def match_lookup (match_dictionary : List String) (idx : Int) : String :=
  if idx < 0 then match_dictionary.getD (match_dictionary.length - (-idx).toNat) ""
  else match_dictionary.getD idx.toNat ""

/-- The `for idx in result: if idx != -1: append ... else: break` loop
of `result_to_string`, returning the accumulated `str_list`. -/
def result_to_string_go (match_dictionary : List String) : List Int → List String
  | [] => []
  | idx :: rest =>
    if idx ≠ -1 then
      match_lookup match_dictionary idx :: result_to_string_go match_dictionary rest
    else []

/-- Embedding of `result_to_string` from the license-plate notebook: decode the
flattened model output, translating entries through the match
dictionary until the first `-1`, and join the pieces. -/
def result_to_string (match_dictionary : List String) (result : List Int) : String :=
  String.join (result_to_string_go match_dictionary result)

end PlateRecognition

namespace EntityExtraction

theorem getD_append_add {α : Type} (p q : List α) (i : Nat) (d : α) :
    (p ++ q).getD (p.length + i) d = q.getD i d := by
  rw [List.getD_eq_getElem?_getD, List.getD_eq_getElem?_getD,
    List.getElem?_append_right (Nat.le_add_right _ _)]
  simp

theorem length_slice {α : Type} (l : List α) (a b : Nat) :
    (slice l a b).length = min b l.length - a := by
  simp [slice]

theorem add_lt_of_lt_length_slice {α : Type} {l : List α} {a b i : Nat}
    (h : i < (slice l a b).length) : a + i < l.length ∧ a + i < b := by
  rw [length_slice] at h
  omega

theorem getD_slice {α : Type} (l : List α) (a b i : Nat) (d : α)
    (h : i < (slice l a b).length) : (slice l a b).getD i d = l.getD (a + i) d := by
  obtain ⟨h1, h2⟩ := add_lt_of_lt_length_slice h
  rw [List.getD_eq_getElem _ _ h, List.getD_eq_getElem _ _ h1]
  simp only [slice, List.getElem_drop, List.getElem_take]

theorem getD_mapIdx_of_lt {α β : Type} (l : List α) (f : Nat → α → β) (i : Nat)
    (hi : i < l.length) (d : β) (e : α) :
    (l.mapIdx f).getD i d = f i (l.getD i e) := by
  rw [List.getD_eq_getElem _ _ (by simpa [List.length_mapIdx] using hi),
    List.getD_eq_getElem _ _ hi]
  have := List.get_mapIdx l f i hi
  simp only [List.get_eq_getElem] at this
  exact this

theorem length_flatten_uniform {α : Type} (m : List (List α)) (n : Nat)
    (h : ∀ r ∈ m, r.length = n) : m.flatten.length = m.length * n := by
  induction m with
  | nil => simp
  | cons r t ih =>
    have hr : r.length = n := h r (by simp)
    have ht := ih (fun r hr => h r (by simp [hr]))
    simp only [List.flatten_cons, List.length_append, List.length_cons, hr, ht]
    ring

theorem getD_flatten_uniform {α : Type} (m : List (List α)) (n : Nat)
    (h : ∀ r ∈ m, r.length = n) (a b : Nat) (ha : a < m.length) (hb : b < n) (d : α) :
    m.flatten.getD (a * n + b) d = (m.getD a []).getD b d := by
  induction m generalizing a with
  | nil => simp at ha
  | cons r t ih =>
    have hr : r.length = n := h r (by simp)
    cases a with
    | zero =>
      simp only [List.flatten_cons, Nat.zero_mul, Nat.zero_add, List.getD_cons_zero]
      exact List.getD_append _ _ _ _ (by omega)
    | succ a =>
      have hsplit : (a + 1) * n + b = r.length + (a * n + b) := by rw [hr]; ring
      rw [List.flatten_cons, hsplit, getD_append_add, List.getD_cons_succ]
      exact ih (fun r hr => h r (by simp [hr])) a (by simpa using ha)

theorem argmaxFrom_go {α : Type} [LinearOrderedField α] (xs : List α) :
    ∀ (p : List α) (bi : Nat), bi < p.length →
    (∀ m, m < p.length → p.getD m 0 ≤ p.getD bi 0) →
    (∀ m, m < bi → p.getD m 0 < p.getD bi 0) →
    argmaxFrom xs p.length bi (p.getD bi 0) < (p ++ xs).length ∧
    (∀ m, m < (p ++ xs).length →
      (p ++ xs).getD m 0 ≤ (p ++ xs).getD (argmaxFrom xs p.length bi (p.getD bi 0)) 0) ∧
    (∀ m, m < argmaxFrom xs p.length bi (p.getD bi 0) →
      (p ++ xs).getD m 0 < (p ++ xs).getD (argmaxFrom xs p.length bi (p.getD bi 0)) 0) := by
  induction xs with
  | nil =>
    intro p bi hbi hmax hfirst
    simp only [argmaxFrom, List.append_nil]
    exact ⟨hbi, hmax, hfirst⟩
  | cons x xs ih =>
    intro p bi hbi hmax hfirst
    have happ : p ++ x :: xs = (p ++ [x]) ++ xs := by simp
    have hlen : (p ++ [x]).length = p.length + 1 := by simp
    have hgetx : (p ++ [x]).getD p.length 0 = x := by
      have := getD_append_add p [x] 0 (0 : α)
      simp only [Nat.add_zero, List.getD_cons_zero] at this
      exact this
    have hgetold : ∀ m, m < p.length → (p ++ [x]).getD m 0 = p.getD m 0 := by
      intro m hm
      exact List.getD_append _ _ _ _ hm
    by_cases hlt : p.getD bi 0 < x
    · have hstep : argmaxFrom (x :: xs) p.length bi (p.getD bi 0) =
          argmaxFrom xs (p ++ [x]).length p.length ((p ++ [x]).getD p.length 0) := by
        rw [argmaxFrom, if_pos hlt, hlen, hgetx]
      rw [hstep, happ]
      exact ih (p ++ [x]) p.length (by omega)
        (by
          intro m hm
          rw [hgetx]
          rcases Nat.lt_or_ge m p.length with hm2 | hm2
          · rw [hgetold m hm2]
            exact le_of_lt (lt_of_le_of_lt (hmax m hm2) hlt)
          · have : m = p.length := by omega
            rw [this, hgetx])
        (by
          intro m hm
          rw [hgetx, hgetold m (by omega)]
          exact lt_of_le_of_lt (hmax m (by omega)) hlt)
    · have hstep : argmaxFrom (x :: xs) p.length bi (p.getD bi 0) =
          argmaxFrom xs (p ++ [x]).length bi ((p ++ [x]).getD bi 0) := by
        rw [argmaxFrom, if_neg hlt, hlen, hgetold bi hbi]
      rw [hstep, happ]
      exact ih (p ++ [x]) bi (by omega)
        (by
          intro m hm
          rw [hgetold bi hbi]
          rcases Nat.lt_or_ge m p.length with hm2 | hm2
          · rw [hgetold m hm2]
            exact hmax m hm2
          · have : m = p.length := by omega
            rw [this, hgetx]
            exact le_of_not_lt hlt)
        (by
          intro m hm
          rw [hgetold bi hbi, hgetold m (by omega)]
          exact hfirst m hm)

theorem npArgmax_spec {α : Type} [LinearOrderedField α] (l : List α) (k : Nat)
    (h : npArgmax l = some k) :
    k < l.length ∧ (∀ m, m < l.length → l.getD m 0 ≤ l.getD k 0) ∧
    (∀ m, m < k → l.getD m 0 < l.getD k 0) := by
  cases l with
  | nil => simp [npArgmax] at h
  | cons x xs =>
    have hk : k = argmaxFrom xs 1 0 x := by
      simpa [npArgmax] using h.symm
    have := argmaxFrom_go xs [x] 0 (by simp)
      (by
        intro m hm
        have : m = 0 := by simpa using hm
        simp [this])
      (by intro m hm; omega)
    simpa [hk] using this

theorem npArgmax_eq_none_iff {α : Type} [LinearOrder α] (l : List α) :
    npArgmax l = none ↔ l = [] := by
  cases l <;> simp [npArgmax]

theorem length_masked {α : Type} [LinearOrderedField α] (s e : List α) :
    (trilOff (triu (outer s e)) 16).length = s.length := by
  simp [trilOff, triu, outer, List.length_mapIdx]

theorem getD_masked_row {α : Type} [LinearOrderedField α] (s e : List α) (a : Nat)
    (ha : a < s.length) :
    (trilOff (triu (outer s e)) 16).getD a [] =
      ((e.map (fun y => s.getD a 0 * y)).mapIdx
        (fun j x => if j < a then 0 else x)).mapIdx
        (fun j x => if a + 16 < j then 0 else x) := by
  have h0 : (outer s e).getD a [] = e.map (fun y => s.getD a 0 * y) := by
    rw [outer, List.getD_eq_getElem _ _ (by simpa using ha), List.getElem_map,
      List.getD_eq_getElem _ _ ha]
  have h1 : (triu (outer s e)).getD a [] =
      ((outer s e).getD a []).mapIdx (fun j x => if j < a then 0 else x) := by
    rw [triu]
    exact getD_mapIdx_of_lt _ _ a (by simpa [outer] using ha) _ []
  have h2 : (trilOff (triu (outer s e)) 16).getD a [] =
      ((triu (outer s e)).getD a []).mapIdx (fun j x => if a + 16 < j then 0 else x) := by
    rw [trilOff]
    exact getD_mapIdx_of_lt _ _ a
      (by simpa [triu, outer, List.length_mapIdx] using ha) _ []
  rw [h2, h1, h0]

theorem length_masked_row {α : Type} [LinearOrderedField α] (s e : List α) (a : Nat)
    (ha : a < s.length) :
    ((trilOff (triu (outer s e)) 16).getD a []).length = e.length := by
  rw [getD_masked_row s e a ha]
  simp [List.length_mapIdx]

theorem masked_rows_mem {α : Type} [LinearOrderedField α] (s e : List α) :
    ∀ r ∈ trilOff (triu (outer s e)) 16, r.length = e.length := by
  intro r hr
  rw [List.mem_iff_getElem] at hr
  obtain ⟨a, ha, rfl⟩ := hr
  have ha2 : a < s.length := by
    simpa [trilOff, triu, outer, List.length_mapIdx] using ha
  rw [← List.getD_eq_getElem _ [] ha]
  exact length_masked_row s e a ha2

theorem getD_masked_entry {α : Type} [LinearOrderedField α] (s e : List α) (a b : Nat)
    (ha : a < s.length) (hb : b < e.length) :
    ((trilOff (triu (outer s e)) 16).getD a []).getD b 0 =
      if a ≤ b ∧ b ≤ a + 16 then s.getD a 0 * e.getD b 0 else 0 := by
  rw [getD_masked_row s e a ha]
  rw [getD_mapIdx_of_lt _ _ b (by simpa [List.length_mapIdx] using hb) _ 0]
  rw [getD_mapIdx_of_lt _ _ b (by simpa using hb) _ 0]
  have hmap : (e.map (fun y => s.getD a 0 * y)).getD b 0 = s.getD a 0 * e.getD b 0 := by
    rw [List.getD_eq_getElem _ _ (by simpa using hb), List.getElem_map,
      List.getD_eq_getElem _ _ hb]
  rw [hmap]
  split_ifs <;> first | rfl | omega

theorem index_flat_lt {a b n : Nat} (ha : a < n) (hb : b < n) : a * n + b < n * n := by
  calc a * n + b < a * n + n := by omega
  _ = (a + 1) * n := by ring
  _ ≤ n * n := Nat.mul_le_mul_right n ha

theorem find_best_some {α : Type} [LinearOrderedField α] {ss es : List α} {cs ce : Nat}
    {sc : α} {i j : Nat} (h : find_best_entity_window ss es cs ce = some (sc, i, j)) :
    (slice ss cs ce).length = ce - cs ∧ (slice es cs ce).length = ce - cs ∧
    i < ce - cs ∧ j < ce - cs ∧
    sc = ((trilOff (triu (outer (slice ss cs ce) (slice es cs ce))) 16).getD i []).getD j 0 ∧
    (∀ a b, a < ce - cs → b < ce - cs →
      ((trilOff (triu (outer (slice ss cs ce) (slice es cs ce))) 16).getD a []).getD b 0 ≤ sc) ∧
    (∀ a b, a < ce - cs → b < ce - cs → a * (ce - cs) + b < i * (ce - cs) + j →
      ((trilOff (triu (outer (slice ss cs ce) (slice es cs ce))) 16).getD a []).getD b 0 < sc) := by
  simp only [find_best_entity_window] at h
  split_ifs at h with hcond
  · obtain ⟨h1, h2⟩ := hcond
    set s := slice ss cs ce with hs
    set e := slice es cs ce with he
    set M := trilOff (triu (outer s e)) 16 with hM
    cases hk : npArgmax (npFlatten M) with
    | none => rw [hk] at h; exact absurd h (by simp)
    | some k =>
      rw [hk] at h
      simp only [Option.some.injEq, Prod.mk.injEq] at h
      obtain ⟨hsc, hi, hj⟩ := h
      obtain ⟨hklen, hkmax, hkfirst⟩ := npArgmax_spec _ _ hk
      have hrows : ∀ r ∈ M, r.length = ce - cs := by
        intro r hr
        rw [masked_rows_mem s e r hr, h2]
      have hMlen : M.length = ce - cs := by
        rw [hM, length_masked, h1]
      have hflatlen : (npFlatten M).length = (ce - cs) * (ce - cs) := by
        rw [npFlatten, length_flatten_uniform M (ce - cs) hrows, hMlen]
      have hclpos : 0 < ce - cs := by
        rcases Nat.eq_zero_or_pos (ce - cs) with h0 | h0
        · rw [hflatlen, h0] at hklen; omega
        · exact h0
      have hik : k / (ce - cs) = i := hi
      have hjk : k % (ce - cs) = j := hj
      have hilt : i < ce - cs := by
        rw [← hik]
        exact Nat.div_lt_iff_lt_mul hclpos |>.mpr (by rw [← hflatlen]; exact hklen)
      have hjlt : j < ce - cs := by
        rw [← hjk]
        exact Nat.mod_lt _ hclpos
      have hksplit : i * (ce - cs) + j = k := by
        rw [← hik, ← hjk, Nat.mul_comm]
        exact Nat.div_add_mod k (ce - cs)
      have hval : ∀ a b, a < ce - cs → b < ce - cs →
          (npFlatten M).getD (a * (ce - cs) + b) 0 = (M.getD a []).getD b 0 := by
        intro a b haa hbb
        rw [npFlatten]
        exact getD_flatten_uniform M (ce - cs) hrows a b (by omega) hbb 0
      have hrhs : (npFlatten M).getD k 0 = sc := by
        rw [← hsc, ← hval (k / (ce - cs)) (k % (ce - cs)) (by rw [hik]; exact hilt)
          (by rw [hjk]; exact hjlt)]
        congr 1
        rw [Nat.mul_comm]
        exact (Nat.div_add_mod k (ce - cs)).symm
      refine ⟨h1, h2, hilt, hjlt, ?_, ?_, ?_⟩
      · rw [← hsc, ← hik, ← hjk]
      · intro a b haa hbb
        rw [← hval a b haa hbb, ← hrhs]
        exact hkmax (a * (ce - cs) + b) (by rw [hflatlen]; exact index_flat_lt haa hbb)
      · intro a b haa hbb hlt
        rw [← hval a b haa hbb, ← hrhs]
        rw [hksplit] at hlt
        exact hkfirst (a * (ce - cs) + b) hlt

theorem find_best_none_iff {α : Type} [LinearOrderedField α] (ss es : List α) (cs ce : Nat) :
    find_best_entity_window ss es cs ce = none ↔
      (slice ss cs ce).length ≠ ce - cs ∨ (slice es cs ce).length ≠ ce - cs ∨
      ce - cs = 0 := by
  simp only [find_best_entity_window]
  split_ifs with hcond
  · obtain ⟨h1, h2⟩ := hcond
    set s := slice ss cs ce with hs
    set e := slice es cs ce with he
    set M := trilOff (triu (outer s e)) 16 with hM
    have hrows : ∀ r ∈ M, r.length = ce - cs := by
      intro r hr
      rw [masked_rows_mem s e r hr, h2]
    have hflatlen : (npFlatten M).length = (ce - cs) * (ce - cs) := by
      rw [npFlatten, length_flatten_uniform M (ce - cs) hrows, hM, length_masked, h1]
    cases hk : npArgmax (npFlatten M) with
    | none =>
      rw [npArgmax_eq_none_iff] at hk
      have : (ce - cs) * (ce - cs) = 0 := by
        rw [← hflatlen, hk]
        rfl
      simp only [true_iff]
      exact Or.inr (Or.inr ((Nat.mul_eq_zero.mp this).elim id id))
    | some k =>
      obtain ⟨hklen, _, _⟩ := npArgmax_spec _ _ hk
      simp only [Option.some_ne_none, false_iff]
      push_neg
      refine ⟨h1, h2, ?_⟩
      rw [hflatlen] at hklen
      intro h0
      rw [h0] at hklen
      omega
  · simp only [true_iff]
    rcases Decidable.not_and_iff_or_not.mp hcond with h | h
    · exact Or.inl h
    · exact Or.inr (Or.inl h)

theorem length_get_score (l : List ℝ) : (get_score l).length = l.length := by
  simp [get_score]

theorem getD_get_score (l : List ℝ) (i : Nat) (hi : i < l.length) :
    (get_score l).getD i 0 = Real.exp (l.getD i 0) / (l.map Real.exp).sum := by
  have h1 : i < (l.map Real.exp).length := by simpa using hi
  rw [get_score]
  rw [List.getD_eq_getElem _ _ (by simpa using hi), List.getElem_map,
    ← List.getD_eq_getElem _ (0 : ℝ) h1, List.getD_eq_getElem _ _ h1,
    List.getElem_map, List.getD_eq_getElem _ _ hi]

theorem sum_exp_pos (l : List ℝ) (hne : l ≠ []) : 0 < (l.map Real.exp).sum := by
  apply List.sum_pos
  · intro x hx
    rw [List.mem_map] at hx
    obtain ⟨y, _, rfl⟩ := hx
    exact Real.exp_pos y
  · simpa using hne

theorem exp_getD_le_sum (l : List ℝ) (i : Nat) (hi : i < l.length) :
    Real.exp (l.getD i 0) ≤ (l.map Real.exp).sum := by
  apply List.single_le_sum
  · intro x hx
    rw [List.mem_map] at hx
    obtain ⟨y, _, rfl⟩ := hx
    exact le_of_lt (Real.exp_pos y)
  · rw [List.getD_eq_getElem _ _ hi, ← List.getElem_map Real.exp]
    · exact List.getElem_mem (by simpa using hi)

theorem get_score_pos (l : List ℝ) (i : Nat) (hi : i < l.length) :
    0 < (get_score l).getD i 0 := by
  rw [getD_get_score l i hi]
  exact div_pos (Real.exp_pos _) (sum_exp_pos l (by intro h; rw [h] at hi; simp at hi))

theorem get_score_le_one (l : List ℝ) (i : Nat) (hi : i < l.length) :
    (get_score l).getD i 0 ≤ 1 := by
  rw [getD_get_score l i hi]
  rw [div_le_one (sum_exp_pos l (by intro h; rw [h] at hi; simp at hi))]
  exact exp_getD_le_sum l i hi

theorem sum_set_real (L : List ℝ) (i : Nat) (hi : i < L.length) (a : ℝ) :
    (L.set i a).sum = L.sum - L.getD i 0 + a := by
  rw [List.sum_set, if_pos hi]
  have hsplit : L.sum = (L.take i).sum + (L.drop i).sum :=
    (List.sum_take_add_sum_drop L i).symm
  rw [List.drop_eq_getElem_cons hi, List.sum_cons] at hsplit
  rw [hsplit, List.getD_eq_getElem _ _ hi]
  ring

theorem sum_exp_set (l : List ℝ) (i : Nat) (hi : i < l.length) (v : ℝ) :
    ((l.set i v).map Real.exp).sum =
      (l.map Real.exp).sum - Real.exp (l.getD i 0) + Real.exp v := by
  rw [List.map_set]
  rw [sum_set_real _ i (by simpa using hi)]
  congr 2
  rw [List.getD_eq_getElem _ _ (by simpa using hi), List.getElem_map,
    List.getD_eq_getElem _ _ hi]

theorem get_score_mono_set (l : List ℝ) (i : Nat) (hi : i < l.length) (v : ℝ)
    (hv : l.getD i 0 ≤ v) :
    (get_score l).getD i 0 ≤ (get_score (l.set i v)).getD i 0 := by
  have hi2 : i < (l.set i v).length := by simpa using hi
  rw [getD_get_score l i hi, getD_get_score _ i hi2, sum_exp_set l i hi v]
  have hgv : (l.set i v).getD i 0 = v := by
    rw [List.getD_eq_getElem _ _ hi2]
    exact List.getElem_set_self hi2
  rw [hgv]
  set a := Real.exp (l.getD i 0) with hadef
  set b := Real.exp v with hbdef
  set S := (l.map Real.exp).sum with hSdef
  have hab : a ≤ b := Real.exp_le_exp.mpr hv
  have ha : 0 < a := Real.exp_pos _
  have hS : 0 < S := sum_exp_pos l (by intro h; rw [h] at hi; simp at hi)
  have haS : a ≤ S := exp_getD_le_sum l i hi
  have hS2 : 0 < S - a + b := by linarith
  rw [div_le_div_iff₀ hS hS2]
  nlinarith [mul_nonneg (sub_nonneg.mpr hab) (sub_nonneg.mpr haS)]

theorem selectSpan_some_core {s e : List ℝ} {cs ce : Nat} {sc : ℝ} {i j : Nat}
    (h : selectSpan s e cs ce = some (sc, i, j)) :
    i < ce - cs ∧ j < ce - cs ∧ i ≤ j ∧ j ≤ i + 16 ∧
    sc = (get_score s).getD (cs + i) 0 * (get_score e).getD (cs + j) 0 ∧
    cs + i < s.length ∧ cs + j < e.length := by
  have hfb : find_best_entity_window (get_score s) (get_score e) cs ce =
      some (sc, i, j) := h
  obtain ⟨h1, h2, hi, hj, hsc, hmax, _⟩ := find_best_some hfb
  have hcl : 0 < ce - cs := by omega
  have hsi : cs + i < (get_score s).length ∧ cs + i < ce :=
    add_lt_of_lt_length_slice (by rw [h1]; exact hi)
  have hej : cs + j < (get_score e).length ∧ cs + j < ce :=
    add_lt_of_lt_length_slice (by rw [h2]; exact hj)
  have hs0 : cs + 0 < (get_score s).length ∧ cs + 0 < ce :=
    add_lt_of_lt_length_slice (by rw [h1]; exact hcl)
  have he0 : cs + 0 < (get_score e).length ∧ cs + 0 < ce :=
    add_lt_of_lt_length_slice (by rw [h2]; exact hcl)
  have hentry : ((trilOff (triu (outer (slice (get_score s) cs ce)
      (slice (get_score e) cs ce))) 16).getD i []).getD j 0 =
      if i ≤ j ∧ j ≤ i + 16 then
        (slice (get_score s) cs ce).getD i 0 * (slice (get_score e) cs ce).getD j 0
      else 0 :=
    getD_masked_entry _ _ i j (by rw [h1]; exact hi) (by rw [h2]; exact hj)
  have hentry00 : ((trilOff (triu (outer (slice (get_score s) cs ce)
      (slice (get_score e) cs ce))) 16).getD 0 []).getD 0 0 =
      (slice (get_score s) cs ce).getD 0 0 * (slice (get_score e) cs ce).getD 0 0 := by
    rw [getD_masked_entry _ _ 0 0 (by rw [h1]; exact hcl) (by rw [h2]; exact hcl)]
    simp
  have hpos00 : 0 < ((trilOff (triu (outer (slice (get_score s) cs ce)
      (slice (get_score e) cs ce))) 16).getD 0 []).getD 0 0 := by
    rw [hentry00, getD_slice _ _ _ _ _ (by rw [h1]; exact hcl),
      getD_slice _ _ _ _ _ (by rw [h2]; exact hcl)]
    exact mul_pos
      (get_score_pos s (cs + 0) (by rw [← length_get_score s]; exact hs0.1))
      (get_score_pos e (cs + 0) (by rw [← length_get_score e]; exact he0.1))
  have hscpos : 0 < sc := lt_of_lt_of_le hpos00 (hmax 0 0 hcl hcl)
  have hband : i ≤ j ∧ j ≤ i + 16 := by
    by_contra hcon
    rw [hentry, if_neg hcon] at hsc
    rw [hsc] at hscpos
    exact lt_irrefl 0 hscpos
  refine ⟨hi, hj, hband.1, hband.2, ?_, by rw [← length_get_score s]; exact hsi.1,
    by rw [← length_get_score e]; exact hej.1⟩
  rw [hsc, hentry, if_pos hband,
    getD_slice _ _ _ _ _ (by rw [h1]; exact hi),
    getD_slice _ _ _ _ _ (by rw [h2]; exact hj)]

/-- Claim C1: after the best context-local pair `(i, j)` is selected,
`postprocess` returns the character offsets of the corresponding global
tokens: when the context token-span table is the `contextStartIdx`-shifted
context region of a global token-span table `tokenSpans`, the returned
offsets are `(tokenSpans[i + contextStartIdx]).1` and
`(tokenSpans[j + contextStartIdx]).2` (with
`contextStartIdx = len(entity_tokens) + 2`). -/
theorem postprocess_maps_span_to_char_offsets (output_start output_end : List ℝ)
    (entity_tokens : List Int) (cts tokenSpans : List (Nat × Nat)) (input_size : Nat)
    (sc : ℝ) (i j : Nat)
    (hfb : find_best_entity_window (get_score output_start) (get_score output_end)
      (entity_tokens.length + 2) (input_size - 1) = some (sc, i, j))
    (hts : ∀ k, k < (input_size - 1) - (entity_tokens.length + 2) →
      cts.getD k (0, 0) = tokenSpans.getD (k + (entity_tokens.length + 2)) (0, 0)) :
    postprocess output_start output_end entity_tokens cts input_size =
      some (sc, (tokenSpans.getD (i + (entity_tokens.length + 2)) (0, 0)).1,
        (tokenSpans.getD (j + (entity_tokens.length + 2)) (0, 0)).2) := by
  obtain ⟨_, _, hi, hj, _, _, _⟩ := find_best_some hfb
  simp only [postprocess]
  rw [hfb]
  dsimp only
  rw [hts i hi, hts j hj]

/-- Claim C2 (counterexample): `selectSpan` does not fail on
mismatched-length logit vectors; with `len(startLogits) = 3 ≠ 4 =
len(endLogits)` and context window `[0, 2)` it returns a span normally,
so no `InvalidInputError` is raised. -/
theorem selectSpan_mismatched_lengths_return_normally :
    List.length ([0, 0, 0] : List ℝ) ≠ List.length ([0, 0, 0, 0] : List ℝ) ∧
    selectSpan [0, 0, 0] [0, 0, 0, 0] 0 2 = some (1 / 12, 0, 0) := by
  constructor
  · norm_num
  · have h1 : get_score [0, 0, 0] = [1 / 3, 1 / 3, 1 / 3] := by
      norm_num [get_score, Real.exp_zero]
    have h2 : get_score [0, 0, 0, 0] = [1 / 4, 1 / 4, 1 / 4, 1 / 4] := by
      norm_num [get_score, Real.exp_zero]
    rw [selectSpan, h1, h2]
    norm_num [find_best_entity_window, slice, outer, triu, trilOff, npFlatten,
      npArgmax, argmaxFrom, List.mapIdx_cons]

/-- Claim C2 (amended): the code performs no input validation and has no
typed errors; rendering a Python/numpy runtime error as `none`,
`selectSpan` fails exactly when the context window is empty
(`ce - cs = 0`) or the slice `[cs:ce]` of either logit vector is shorter than
the window (numpy reshape failure).  Mismatched total lengths alone do
not cause a failure. -/
theorem selectSpan_failure_iff (s e : List ℝ) (cs ce : Nat) :
    selectSpan s e cs ce = none ↔
      (slice s cs ce).length ≠ ce - cs ∨ (slice e cs ce).length ≠ ce - cs ∨
      ce - cs = 0 := by
  have hrw : selectSpan s e cs ce =
      find_best_entity_window (get_score s) (get_score e) cs ce := rfl
  rw [hrw, find_best_none_iff]
  simp [length_slice, length_get_score]

/-- Claim C3: the probability assigned to each position is
`exp(logit)` divided by the sum of `exp` over the entire vector (all
positions, including entity and special tokens), and the context
sub-vector used by the window search is sliced from these
already-normalized probabilities. -/
theorem get_score_softmax_full_vector (l : List ℝ) (i : Nat) (hi : i < l.length)
    (s e : List ℝ) (cs ce k : Nat) (hk : k < (slice (get_score l) cs ce).length) :
    (get_score l).getD i 0 = Real.exp (l.getD i 0) / (l.map Real.exp).sum ∧
    (slice (get_score l) cs ce).getD k 0 =
      Real.exp (l.getD (cs + k) 0) / (l.map Real.exp).sum ∧
    selectSpan s e cs ce =
      find_best_entity_window (get_score s) (get_score e) cs ce := by
  refine ⟨getD_get_score l i hi, ?_, rfl⟩
  rw [getD_slice _ _ _ _ _ hk]
  exact getD_get_score l (cs + k)
    (by rw [← length_get_score l]; exact (add_lt_of_lt_length_slice hk).1)

/-- Claim C4: any span selected by `selectSpan` satisfies
`i ≤ j` and `j - i ≤ 16` (the hard-coded maximum span length): pairs
outside the band are masked to zero and are never returned, whatever
the logits. -/
theorem selectSpan_respects_band (s e : List ℝ) (cs ce : Nat) (sc : ℝ) (i j : Nat)
    (h : selectSpan s e cs ce = some (sc, i, j)) :
    i ≤ j ∧ j - i ≤ 16 := by
  obtain ⟨_, _, hij, hj16, _, _, _⟩ := selectSpan_some_core h
  omega

/-- Claim C5: the selected pair is the row-major argmax of the masked
score matrix: its entry equals the returned score, every entry of the
matrix is `≤` that score, and every entry at a strictly smaller
row-major flattened index is `<` it (ties are broken by the lowest
flattened index). -/
theorem selectSpan_is_rowmajor_argmax (s e : List ℝ) (cs ce : Nat) (sc : ℝ)
    (i j : Nat) (h : selectSpan s e cs ce = some (sc, i, j)) :
    i < ce - cs ∧ j < ce - cs ∧
    sc = ((trilOff (triu (outer (slice (get_score s) cs ce)
      (slice (get_score e) cs ce))) 16).getD i []).getD j 0 ∧
    (∀ a b, a < ce - cs → b < ce - cs →
      ((trilOff (triu (outer (slice (get_score s) cs ce)
        (slice (get_score e) cs ce))) 16).getD a []).getD b 0 ≤ sc) ∧
    (∀ a b, a < ce - cs → b < ce - cs → a * (ce - cs) + b < i * (ce - cs) + j →
      ((trilOff (triu (outer (slice (get_score s) cs ce)
        (slice (get_score e) cs ce))) 16).getD a []).getD b 0 < sc) := by
  have hfb : find_best_entity_window (get_score s) (get_score e) cs ce =
      some (sc, i, j) := h
  obtain ⟨_, _, hi, hj, hsc, hmax, hfirst⟩ := find_best_some hfb
  exact ⟨hi, hj, hsc, hmax, hfirst⟩

/-- Claim C6: the returned score is the product of the two softmax
probabilities at the selected global positions, and hence lies in
`[0, 1]`. -/
theorem selectSpan_score_in_unit_interval (s e : List ℝ) (cs ce : Nat) (sc : ℝ)
    (i j : Nat) (h : selectSpan s e cs ce = some (sc, i, j)) :
    0 ≤ sc ∧ sc ≤ 1 ∧
    sc = (get_score s).getD (cs + i) 0 * (get_score e).getD (cs + j) 0 := by
  obtain ⟨_, _, _, _, hsc, hsl, hel⟩ := selectSpan_some_core h
  have hp1 := get_score_pos s (cs + i) hsl
  have hp2 := get_score_pos e (cs + j) hel
  have hq1 := get_score_le_one s (cs + i) hsl
  have hq2 := get_score_le_one e (cs + j) hel
  refine ⟨?_, ?_, hsc⟩
  · rw [hsc]
    exact mul_nonneg (le_of_lt hp1) (le_of_lt hp2)
  · rw [hsc]
    nlinarith

/-- Claim C7: increasing the start logit at the global position of the
start index of the selected span (all other logits fixed) does not decrease
the returned score. -/
theorem selectSpan_score_monotone_in_start_logit (s e : List ℝ) (cs ce : Nat)
    (sc sc2 : ℝ) (i j i2 j2 : Nat) (v : ℝ)
    (h1 : selectSpan s e cs ce = some (sc, i, j))
    (hv : s.getD (cs + i) 0 ≤ v)
    (h2 : selectSpan (s.set (cs + i) v) e cs ce = some (sc2, i2, j2)) :
    sc ≤ sc2 := by
  obtain ⟨hi, hj, hij, hj16, hsc, hsl, hel⟩ := selectSpan_some_core h1
  have hfb2 : find_best_entity_window (get_score (s.set (cs + i) v))
      (get_score e) cs ce = some (sc2, i2, j2) := h2
  obtain ⟨g1, g2, _, _, _, hmax2, _⟩ := find_best_some hfb2
  have hentry : ((trilOff (triu (outer (slice (get_score (s.set (cs + i) v)) cs ce)
      (slice (get_score e) cs ce))) 16).getD i []).getD j 0 =
      (get_score (s.set (cs + i) v)).getD (cs + i) 0 *
        (get_score e).getD (cs + j) 0 := by
    rw [getD_masked_entry _ _ i j (by rw [g1]; exact hi) (by rw [g2]; exact hj),
      if_pos ⟨hij, hj16⟩, getD_slice _ _ _ _ _ (by rw [g1]; exact hi),
      getD_slice _ _ _ _ _ (by rw [g2]; exact hj)]
  have hle := hmax2 i j hi hj
  rw [hentry] at hle
  have hmono := get_score_mono_set s (cs + i) hsl v hv
  have hq : 0 ≤ (get_score e).getD (cs + j) 0 :=
    le_of_lt (get_score_pos e _ hel)
  calc sc = (get_score s).getD (cs + i) 0 * (get_score e).getD (cs + j) 0 := hsc
  _ ≤ (get_score (s.set (cs + i) v)).getD (cs + i) 0 *
      (get_score e).getD (cs + j) 0 := mul_le_mul_of_nonneg_right hmono hq
  _ ≤ sc2 := hle

theorem analyzeFields_eq_filterMap (gbe : String → String → String × ℝ)
    (context : String) (fields : List String) (acc : List Extraction) :
    analyzeFields gbe context fields acc =
      acc ++ fields.filterMap (fun field =>
        if confidence_threshold ≤ (gbe (field ++ "?") context).2 then
          some ⟨(gbe (field ++ "?") context).1, field, (gbe (field ++ "?") context).2⟩
        else none) := by
  induction fields generalizing acc with
  | nil => simp [analyzeFields]
  | cons f t ih =>
    simp only [analyzeFields, List.filterMap_cons]
    by_cases hc : confidence_threshold ≤ (gbe (f ++ "?") context).2
    · rw [if_pos hc, ih]
      simp [hc]
    · rw [if_neg hc, ih]
      simp [hc]

/-- Claim C8: for a valid context, `run_analyze_entities` walks the
template field list in its given order, queries each field as
`field ++ "?"`, and its output is exactly the in-order filter of the
fields whose score reaches the 0.4 confidence threshold, each
contributing one `{entity, type, score}` record. -/
theorem run_analyze_entities_filters_in_order (gbe : String → String → String × ℝ)
    (context : String) (h0 : 0 < context.length) (h380 : context.length ≤ 380) :
    run_analyze_entities gbe context =
      some (template.filterMap (fun field =>
        if confidence_threshold ≤ (gbe (field ++ "?") context).2 then
          some ⟨(gbe (field ++ "?") context).1, field, (gbe (field ++ "?") context).2⟩
        else none)) := by
  rw [run_analyze_entities, if_neg (by omega), if_neg (by omega),
    analyzeFields_eq_filterMap]
  simp

/-- Claim C9: `run_analyze_entities` rejects exactly the contexts that
are empty or longer than 380 characters (printing an error and
returning, modelled as `none`), and on such contexts its result does
not depend on the inference oracle (the oracle is never invoked);
contexts of 1 to 380 characters are processed normally. -/
theorem run_analyze_entities_length_guard
    (gbe gbe2 : String → String → String × ℝ) (context : String) :
    (run_analyze_entities gbe context = none ↔
      context.length = 0 ∨ 380 < context.length) ∧
    (context.length = 0 ∨ 380 < context.length →
      run_analyze_entities gbe context = run_analyze_entities gbe2 context) := by
  constructor
  · rw [run_analyze_entities]
    split_ifs with ha hb
    · simp [ha]
    · simp [hb]
    · simp only [Option.some_ne_none, false_iff]
      omega
  · intro h
    rw [run_analyze_entities, run_analyze_entities]
    rcases h with h | h
    · rw [if_pos h, if_pos h]
    · have h0 : ¬context.length = 0 := by omega
      rw [if_neg h0, if_neg h0, if_pos h, if_pos h]

end EntityExtraction

namespace PlateRecognition

theorem result_to_string_go_eq_takeWhile (dict : List String) (l : List Int) :
    result_to_string_go dict l =
      (l.takeWhile (fun idx => idx != -1)).map (match_lookup dict) := by
  induction l with
  | nil => simp [result_to_string_go]
  | cons idx rest ih =>
    by_cases h : idx = -1
    · simp [result_to_string_go, h]
    · simp only [result_to_string_go, if_pos h, List.takeWhile_cons]
      rw [if_pos (by simp [h])]
      simp [ih]

theorem result_to_string_go_drops_suffix (dict : List String) (pre post1 post2 : List Int) :
    result_to_string_go dict (pre ++ (-1) :: post1) =
      result_to_string_go dict (pre ++ (-1) :: post2) := by
  induction pre with
  | nil => simp [result_to_string_go]
  | cons x pre ih =>
    by_cases h : x = -1
    · simp [result_to_string_go, h]
    · simp only [List.cons_append, result_to_string_go, if_pos h]
      exact congrArg (fun r => match_lookup dict x :: r) ih

/-- Claim C10: `result_to_string` concatenates the dictionary entries of
the values of the flattened output up to (and excluding) the first `-1`:
it equals the join of the mapped `takeWhile (· ≠ -1)` prefix, entries
after the first `-1` never affect the result, and an output starting
with `-1` decodes to the empty string. -/
theorem result_to_string_stops_at_first_negative_one :
    (∀ dict l, result_to_string dict l =
      String.join ((l.takeWhile (fun idx => idx != -1)).map (match_lookup dict))) ∧
    (∀ dict pre post1 post2,
      result_to_string dict (pre ++ (-1) :: post1) =
        result_to_string dict (pre ++ (-1) :: post2)) ∧
    (∀ dict l, result_to_string dict ((-1) :: l) = "") := by
  refine ⟨?_, ?_, ?_⟩
  · intro dict l
    rw [result_to_string, result_to_string_go_eq_takeWhile]
  · intro dict pre post1 post2
    rw [result_to_string, result_to_string, result_to_string_go_drops_suffix]
  · intro dict l
    simp [result_to_string, result_to_string_go, String.join]

end PlateRecognition

namespace EntityExtraction

theorem selectSpan_eval_pair : selectSpan [0, 0] [0, 0] 0 2 = some (1 / 4, 0, 0) := by
  have h1 : get_score [0, 0] = [1 / 2, 1 / 2] := by
    norm_num [get_score, Real.exp_zero]
  rw [selectSpan, h1]
  norm_num [find_best_entity_window, slice, outer, triu, trilOff, npFlatten,
    npArgmax, argmaxFrom, List.mapIdx_cons]

theorem selectSpan_eval_single : selectSpan [0, 0] [0, 0] 1 2 = some (1 / 4, 0, 0) := by
  have h1 : get_score [0, 0] = [1 / 2, 1 / 2] := by
    norm_num [get_score, Real.exp_zero]
  rw [selectSpan, h1]
  norm_num [find_best_entity_window, slice, outer, triu, trilOff, npFlatten,
    npArgmax, argmaxFrom, List.mapIdx_cons]

theorem selectSpan_eval_third : selectSpan [0, 0, 0] [0, 0, 0] 0 3 = some (1 / 9, 0, 0) := by
  have h1 : get_score [0, 0, 0] = [1 / 3, 1 / 3, 1 / 3] := by
    norm_num [get_score, Real.exp_zero]
  rw [selectSpan, h1]
  norm_num [find_best_entity_window, slice, outer, triu, trilOff, npFlatten,
    npArgmax, argmaxFrom, List.mapIdx_cons]

theorem find_best_eval_quarter :
    find_best_entity_window (get_score [0, 0, 0, 0]) (get_score [0, 0, 0, 0]) 2 3 =
      some (1 / 16, 0, 0) := by
  have h1 : get_score [0, 0, 0, 0] = [1 / 4, 1 / 4, 1 / 4, 1 / 4] := by
    norm_num [get_score, Real.exp_zero]
  rw [h1]
  norm_num [find_best_entity_window, slice, outer, triu, trilOff, npFlatten,
    npArgmax, argmaxFrom, List.mapIdx_cons]

theorem postprocess_maps_span_to_char_offsets_witness :
    find_best_entity_window (get_score [0, 0, 0, 0]) (get_score [0, 0, 0, 0])
      (List.length ([] : List Int) + 2) (4 - 1) = some (1 / 16, 0, 0) ∧
    postprocess [0, 0, 0, 0] [0, 0, 0, 0] [] [(5, 9)] 4 = some (1 / 16, 5, 9) := by
  have hfb : find_best_entity_window (get_score [0, 0, 0, 0]) (get_score [0, 0, 0, 0])
      (List.length ([] : List Int) + 2) (4 - 1) = some (1 / 16, 0, 0) :=
    find_best_eval_quarter
  have hts : ∀ k, k < (4 - 1) - (List.length ([] : List Int) + 2) →
      List.getD [(5, 9)] k (0, 0) =
        List.getD [(0, 0), (0, 0), (5, 9)] (k + (List.length ([] : List Int) + 2)) (0, 0) := by
    intro k hk
    have hk0 : k = 0 := by omega
    subst hk0
    rfl
  exact ⟨hfb, postprocess_maps_span_to_char_offsets [0, 0, 0, 0] [0, 0, 0, 0] []
    [(5, 9)] [(0, 0), (0, 0), (5, 9)] 4 (1 / 16) 0 0 hfb hts⟩

theorem get_score_softmax_full_vector_witness :
    0 < List.length ([0, 1] : List ℝ) ∧
    0 < (slice (get_score [0, 1]) 0 1).length ∧
    ((get_score [0, 1]).getD 0 0 =
      Real.exp (List.getD ([0, 1] : List ℝ) 0 0) / (([0, 1] : List ℝ).map Real.exp).sum ∧
    (slice (get_score [0, 1]) 0 1).getD 0 0 =
      Real.exp (List.getD ([0, 1] : List ℝ) (0 + 0) 0) /
        (([0, 1] : List ℝ).map Real.exp).sum ∧
    selectSpan [0] [0] 0 1 =
      find_best_entity_window (get_score [0]) (get_score [0]) 0 1) := by
  have hk : 0 < (slice (get_score [0, 1]) 0 1).length := by
    rw [length_slice, length_get_score]
    norm_num
  exact ⟨by norm_num, hk,
    get_score_softmax_full_vector [0, 1] 0 (by norm_num) [0] [0] 0 1 0 hk⟩

theorem selectSpan_respects_band_witness :
    selectSpan [0, 0] [0, 0] 0 2 = some (1 / 4, 0, 0) ∧ (0 ≤ 0 ∧ 0 - 0 ≤ 16) :=
  ⟨selectSpan_eval_pair,
    selectSpan_respects_band [0, 0] [0, 0] 0 2 (1 / 4) 0 0 selectSpan_eval_pair⟩

theorem selectSpan_is_rowmajor_argmax_witness :
    selectSpan [0, 0] [0, 0] 1 2 = some (1 / 4, 0, 0) ∧
    (0 < 2 - 1 ∧ 0 < 2 - 1 ∧
    (1 / 4 : ℝ) = ((trilOff (triu (outer (slice (get_score [0, 0]) 1 2)
      (slice (get_score [0, 0]) 1 2))) 16).getD 0 []).getD 0 0 ∧
    (∀ a b, a < 2 - 1 → b < 2 - 1 →
      ((trilOff (triu (outer (slice (get_score [0, 0]) 1 2)
        (slice (get_score [0, 0]) 1 2))) 16).getD a []).getD b 0 ≤ 1 / 4) ∧
    (∀ a b, a < 2 - 1 → b < 2 - 1 → a * (2 - 1) + b < 0 * (2 - 1) + 0 →
      ((trilOff (triu (outer (slice (get_score [0, 0]) 1 2)
        (slice (get_score [0, 0]) 1 2))) 16).getD a []).getD b 0 < 1 / 4)) :=
  ⟨selectSpan_eval_single,
    selectSpan_is_rowmajor_argmax [0, 0] [0, 0] 1 2 (1 / 4) 0 0 selectSpan_eval_single⟩

theorem selectSpan_score_in_unit_interval_witness :
    selectSpan [0, 0, 0] [0, 0, 0] 0 3 = some (1 / 9, 0, 0) ∧
    (0 ≤ (1 / 9 : ℝ) ∧ (1 / 9 : ℝ) ≤ 1 ∧
    (1 / 9 : ℝ) = (get_score [0, 0, 0]).getD (0 + 0) 0 *
      (get_score [0, 0, 0]).getD (0 + 0) 0) :=
  ⟨selectSpan_eval_third,
    selectSpan_score_in_unit_interval [0, 0, 0] [0, 0, 0] 0 3 (1 / 9) 0 0
      selectSpan_eval_third⟩

theorem selectSpan_score_monotone_in_start_logit_witness :
    selectSpan [0, 0] [0, 0] 0 2 = some (1 / 4, 0, 0) ∧
    List.getD ([0, 0] : List ℝ) (0 + 0) 0 ≤ 0 ∧
    selectSpan (([0, 0] : List ℝ).set (0 + 0) 0) [0, 0] 0 2 = some (1 / 4, 0, 0) ∧
    (1 / 4 : ℝ) ≤ 1 / 4 := by
  have h2 : selectSpan (([0, 0] : List ℝ).set (0 + 0) 0) [0, 0] 0 2 =
      some (1 / 4, 0, 0) := selectSpan_eval_pair
  exact ⟨selectSpan_eval_pair, by norm_num, h2,
    selectSpan_score_monotone_in_start_logit [0, 0] [0, 0] 0 2 (1 / 4) (1 / 4)
      0 0 0 0 0 selectSpan_eval_pair (by norm_num) h2⟩

theorem run_analyze_entities_filters_in_order_witness :
    0 < String.length "a" ∧ String.length "a" ≤ 380 ∧
    run_analyze_entities (fun _ _ => ("x", 1)) "a" =
      some (template.filterMap (fun field =>
        if confidence_threshold ≤
            ((fun (_ _ : String) => ("x", (1 : ℝ))) (field ++ "?") "a").2 then
          some ⟨((fun (_ _ : String) => ("x", (1 : ℝ))) (field ++ "?") "a").1, field,
            ((fun (_ _ : String) => ("x", (1 : ℝ))) (field ++ "?") "a").2⟩
        else none)) :=
  ⟨by decide, by decide,
    run_analyze_entities_filters_in_order (fun _ _ => ("x", 1)) "a"
      (by decide) (by decide)⟩

theorem run_analyze_entities_length_guard_witness :
    (run_analyze_entities (fun _ _ => ("x", 1)) "" = none ↔
      String.length "" = 0 ∨ 380 < String.length "") ∧
    (String.length "" = 0 ∨ 380 < String.length "" →
      run_analyze_entities (fun _ _ => ("x", 1)) "" =
        run_analyze_entities (fun _ _ => ("y", 0)) "") :=
  run_analyze_entities_length_guard (fun _ _ => ("x", 1)) (fun _ _ => ("y", 0)) ""

end EntityExtraction
